import Mathlib

/-!
Shallow embedding of `letsencrypt/plugins/standalone.py` (the standalone
authenticator plugin): the `ServerManager` class, the
`supported_challenges_validator` function and the `Authenticator` class
(`perform`, `perform2`, `cleanup`).

Python dictionaries are modelled as insertion-ordered association lists
(`alookup` / `ainsert` / `aerase` mirror `d[k]`, `d[k] = v`, `del d[k]`);
Python sets of hashable records are modelled as duplicate-free lists grown
with `setAdd`.  The operating system's response to a `socket.bind` attempt
(success with an assigned port, or an `errno`) is an explicit oracle `Env`
threaded through the operations; spawning a thread and the accept loop
itself are external effects whose only state visible to this module is the
`(server, thread)` pair stored in the handle table.
-/

namespace Standalone

instance {ε α : Type} [DecidableEq ε] [DecidableEq α] : DecidableEq (Except ε α) :=
  fun x y =>
    match x, y with
    | .ok a, .ok b =>
      if h : a = b then .isTrue (by rw [h])
      else .isFalse (fun hc => h (Except.ok.inj hc))
    | .error a, .error b =>
      if h : a = b then .isTrue (by rw [h])
      else .isFalse (fun hc => h (Except.error.inj hc))
    | .ok _, .error _ => .isFalse (fun hc => Except.noConfusion hc)
    | .error _, .ok _ => .isFalse (fun hc => Except.noConfusion hc)

/-- Python dict lookup `d.get(k)` on an insertion-ordered association list. -/
def alookup {α β : Type} [DecidableEq α] (k : α) : List (α × β) → Option β
  | [] => none
  | (k', v) :: rest => if k' = k then some v else alookup k rest

/-- Python dict assignment `d[k] = v`: replace in place if the key exists,
otherwise append at the end (insertion order). -/
def ainsert {α β : Type} [DecidableEq α] (k : α) (v : β) : List (α × β) → List (α × β)
  | [] => [(k, v)]
  | (k', v') :: rest => if k' = k then (k, v) :: rest else (k', v') :: ainsert k v rest

/-- Python dict deletion `del d[k]` (on a key that is present; on an absent
key Python raises `KeyError`, which no in-module call site can trigger). -/
def aerase {α β : Type} [DecidableEq α] (k : α) : List (α × β) → List (α × β)
  | [] => []
  | (k', v') :: rest => if k' = k then rest else (k', v') :: aerase k rest

/-- Python `set.add` on a duplicate-free list. -/
def setAdd {α : Type} [DecidableEq α] (x : α) (l : List α) : List α :=
  if x ∈ l then l else l ++ [x]

/-- `socket.errno.EACCES` (permission denied). -/
def EACCES : Nat := 13

/-- `socket.errno.EADDRINUSE` (address already in use). -/
def EADDRINUSE : Nat := 98

/-- The operating system's answer to one `bind` attempt: either the socket is
bound and `getsockname` reports `assignedPort`, or a `socket.error` with the
given `errno` is raised. -/
inductive BindOutcome : Type
  | ok (assignedPort : Nat)
  | err (errno : Nat)
deriving DecidableEq, Repr

/-- The environment: an oracle giving the outcome of the `i`-th bind attempt
on a requested port, plus the index of the next attempt. -/
structure Env : Type where
  os : Nat → Nat → BindOutcome
  idx : Nat

/-- Advance the environment past one consumed bind attempt. -/
def Env.next (e : Env) : Env := { e with idx := e.idx + 1 }

/-- A well-formed operating system: a successful bind never reports port 0,
and binding a concrete nonzero port, when it succeeds, binds that port. -/
def OsWF (os : Nat → Nat → BindOutcome) : Prop :=
  ∀ i p ap, os i p = .ok ap → ap ≠ 0 ∧ (p ≠ 0 → ap = p)

/-- An annotated challenge (`achallenges.SimpleHTTP` / `achallenges.DVSNI`):
the wrapped challenge is identified by its token, plus the domain. -/
inductive AChall : Type
  | simpleHTTP (domain : String) (token : String)
  | dvsni (domain : String) (token : String)
deriving DecidableEq, Repr

/-- `achall.domain`. -/
def AChall.domain : AChall → String
  | .simpleHTTP d _ => d
  | .dvsni d _ => d

/-- `achall.chall`: the wrapped challenge, identified by its token. -/
def AChall.chall : AChall → String
  | .simpleHTTP _ t => t
  | .dvsni _ t => t

/-- A challenge response produced by the external protocol layer; it is a
deterministic function of the challenge it answers (and, for SimpleHTTP,
of the TLS flag). -/
structure Response : Type where
  achall : AChall
  tls : Bool
deriving DecidableEq, Repr

/-- `response.z_domain` of a DVSNI response: the synthetic domain name
derived from the challenge. -/
def Response.z_domain (r : Response) : String :=
  r.achall.domain ++ ".acme.invalid"

/-- A SimpleHTTP validation object, deterministic in the same inputs as the
response it accompanies. -/
structure Validation : Type where
  achall : AChall
  tls : Bool
deriving DecidableEq, Repr

/-- A certificate produced by the external crypto layer. -/
inductive Cert : Type
  | selfSigned (key : Nat) (domains : List String)
  | dvsniCert (achall : AChall) (key : Nat)
deriving DecidableEq, Repr

/-- Modelled from the spec: `acme.crypto_util.gen_ss_cert(key, domains)`, the
external self-signed certificate generator (the `acme` package is not part
of this repository). -/
def gen_ss_cert (key : Nat) (domains : List String) : Cert :=
  .selfSigned key domains

/-- Modelled from the spec: `achall.gen_response_and_validation(tls)`, the
external SimpleHTTP proof-material generator (`generateProof` in the spec's
interface list; the `letsencrypt.achallenges` wrapper around the external
protocol layer is not part of this source tree). -/
def gen_response_and_validation (a : AChall) (tls : Bool) : Response × Validation :=
  (⟨a, tls⟩, ⟨a, tls⟩)

/-- Modelled from the spec: `achall.gen_cert_and_response(key)`, the external
DVSNI proof-material generator returning a response and a crafted
certificate. -/
def gen_cert_and_response (a : AChall) (key : Nat) : Response × Cert :=
  (⟨a, true⟩, .dvsniCert a key)

/-- `acme_standalone.SimpleHTTPRequestHandler.SimpleHTTPResource`: the
`(chall, response, validation)` tuple added to the shared resource set. -/
structure SimpleHTTPResource : Type where
  chall : String
  response : Response
  validation : Validation
deriving DecidableEq, Repr

/-- One running ACME server instance: its identity, the concrete port its
socket is bound to (`getsockname`), and which protocol class it was
constructed with (`ACMETLSServer` when `tls`, else `ACMEServer`). -/
structure Server : Type where
  id : Nat
  port : Nat
  tls : Bool
deriving DecidableEq, Repr

/-- The `threading.Thread` running one server's accept loop. -/
structure Thread : Type where
  id : Nat
deriving DecidableEq, Repr

/-- `errors.StandaloneBindError(socket_error, port)`. -/
structure StandaloneBindError : Type where
  socket_error : Nat
  port : Nat
deriving DecidableEq, Repr

/-- `ServerManager`: the handle table `_servers` maps each concrete port to
its `(server, thread)` pair; `nextId` supplies fresh identities for newly
constructed server/thread objects.  The shared `certs` and
`simple_http_resources` stores it aliases live on the `Authenticator`
record; no `ServerManager` method reads or writes them, they are only
handed to the constructed servers. -/
structure ServerManager : Type where
  _servers : List (Nat × Server × Thread)
  nextId : Nat
deriving DecidableEq, Repr

/-- `ServerManager.run(port, tls)`: reuse the entry at `port` when present;
otherwise bind (raising `StandaloneBindError` on a `socket.error`), read the
real port from `getsockname`, start the accept-loop thread and record the
pair under the real port. -/
def ServerManager.run (m : ServerManager) (port : Nat) (tls : Bool) (env : Env) :
    Except StandaloneBindError ((Server × Thread) × ServerManager × Env) :=
  match alookup port m._servers with
  | some st => .ok (st, m, env)
  | none =>
    match env.os env.idx port with
    | .err e => .error ⟨e, port⟩
    | .ok realPort =>
      let server : Server := ⟨m.nextId, realPort, tls⟩
      let thread : Thread := ⟨m.nextId⟩
      .ok ((server, thread),
           ⟨ainsert realPort (server, thread) m._servers, m.nextId + 1⟩,
           env.next)

/-- `ServerManager.stop(port)`: shut the server down, join its thread (both
external effects) and delete the handle-table entry. -/
def ServerManager.stop (m : ServerManager) (port : Nat) : ServerManager :=
  { m with _servers := aerase port m._servers }

/-- `ServerManager.running()`: a snapshot copy of the handle table. -/
def ServerManager.running (m : ServerManager) : List (Nat × Server × Thread) :=
  m._servers

/-- Modelled from the spec: the fixed known-name set
`acme.challenges.Challenge.TYPES` of the external protocol layer (the `acme`
package is not part of this repository); its keys are the registered
challenge type names. -/
def Challenge.TYPES : List String :=
  ["simpleHttp", "dvsni", "dns", "recoveryContact", "recoveryToken",
   "proofOfPossession"]

/-- The two challenge classes this plugin can serve. -/
inductive ChallengeType : Type
  | DVSNI
  | SimpleHTTP
deriving DecidableEq, Repr

/-- `chall.typ`: the wire name of a challenge class. -/
def ChallengeType.typ : ChallengeType → String
  | .DVSNI => "dvsni"
  | .SimpleHTTP => "simpleHttp"

/-- `SUPPORTED_CHALLENGES = set([challenges.DVSNI, challenges.SimpleHTTP])`. -/
def SUPPORTED_CHALLENGES : List ChallengeType :=
  [.DVSNI, .SimpleHTTP]

/-- Python `str.split(sep)` for a one-character separator, on the character
list: every occurrence of the separator starts a new piece, so `""` splits
to `[""]` and `","` splits to `["", ""]`, as in Python. -/
def splitOnCharList (c : Char) : List Char → List (List Char)
  | [] => [[]]
  | x :: xs =>
    match splitOnCharList c xs with
    | [] => if x = c then [[], []] else [[x]]
    | y :: ys => if x = c then [] :: y :: ys else (x :: y) :: ys

/-- `data.split(",")`. -/
def splitCommas (data : String) : List String :=
  (splitOnCharList ',' data.toList).map (fun l => String.mk l)

/-- `argparse.ArgumentTypeError`, structured: the two messages raised by
`supported_challenges_validator`, each carrying the offending names it
formats into its text. -/
inductive ArgumentTypeError : Type
  | unrecognized (names : List String)
  | unsupported (names : List String)
deriving DecidableEq, Repr

/-- `supported_challenges_validator(data)`: split on commas, reject names
outside `Challenge.TYPES`, then reject names outside the plugin's supported
set (`set(challs) - choices`, deduplicated), else return the input. -/
def supported_challenges_validator (data : String) :
    Except ArgumentTypeError String :=
  let challs := splitCommas data
  let unrecognized := challs.filter (fun name => decide (name ∉ Challenge.TYPES))
  if unrecognized ≠ [] then
    .error (.unrecognized unrecognized)
  else
    let choices := SUPPORTED_CHALLENGES.map ChallengeType.typ
    if ¬ challs.all (fun c => decide (c ∈ choices)) then
      .error (.unsupported ((challs.filter (fun c => decide (c ∉ choices))).dedup))
    else
      .ok data

/-- The configuration fields this plugin reads. -/
structure Config : Type where
  simple_http_port : Nat
  dvsni_port : Nat
  no_simple_http_tls : Bool
deriving DecidableEq, Repr

/-- The `Authenticator`'s mutable state after `__init__`: the shared key and
self-signed SimpleHTTP certificate, the served-challenge bookkeeping
(`collections.defaultdict(set)`, a map from server to the set of challenges
it is serving, absent keys reading as the empty set), and the shared
`certs` / `simple_http_resources` stores handed to the `ServerManager`. -/
structure Authenticator : Type where
  key : Nat
  simple_http_cert : Cert
  served : List (Server × List AChall)
  certs : List (String × Nat × Cert)
  simple_http_resources : List SimpleHTTPResource
  servers : ServerManager
  config : Config
deriving DecidableEq, Repr

/-- `Authenticator.__init__`: fresh key, the one self-signed certificate
`gen_ss_cert(key, domains=["temp server"])`, and empty shared state. -/
def Authenticator.init (config : Config) (key : Nat) : Authenticator :=
  { key := key
    simple_http_cert := gen_ss_cert key ["temp server"]
    served := []
    certs := []
    simple_http_resources := []
    servers := ⟨[], 0⟩
    config := config }

/-- `self.served[server]` on the `defaultdict(set)`: absent keys read as the
empty set. -/
def servedLookup (served : List (Server × List AChall)) (srv : Server) :
    List AChall :=
  (alookup srv served).getD []

/-- `self.served[server].add(achall)` on the `defaultdict(set)`. -/
def servedAdd (srv : Server) (a : AChall) (served : List (Server × List AChall)) :
    List (Server × List AChall) :=
  match alookup srv served with
  | some s => ainsert srv (setAdd a s) served
  | none => served ++ [(srv, [a])]

/-- One iteration of the `perform2` loop for one challenge: pick the port
and protocol, ask the manager for the server, generate and publish the
proof material, and record the challenge in the served map. -/
def Authenticator.performStep (s : Authenticator) (env : Env) (achall : AChall) :
    Except StandaloneBindError (Response × Authenticator × Env) :=
  let tls := !s.config.no_simple_http_tls
  match achall with
  | .simpleHTTP _ _ =>
    match s.servers.run s.config.simple_http_port tls env with
    | .error e => .error e
    | .ok ((server, _), m, env') =>
      let rv := gen_response_and_validation achall tls
      let cert := s.simple_http_cert
      let domain := achall.domain
      .ok (rv.1,
           { s with
             servers := m
             simple_http_resources :=
               setAdd ⟨achall.chall, rv.1, rv.2⟩ s.simple_http_resources
             certs := ainsert domain (s.key, cert) s.certs
             served := servedAdd server achall s.served },
           env')
  | .dvsni _ _ =>
    match s.servers.run s.config.dvsni_port true env with
    | .error e => .error e
    | .ok ((server, _), m, env') =>
      let rc := gen_cert_and_response achall s.key
      let domain := rc.1.z_domain
      .ok (rc.1,
           { s with
             servers := m
             certs := ainsert domain (s.key, rc.2) s.certs
             served := servedAdd server achall s.served },
           env')

/-- `Authenticator.perform2(achalls)`: run the loop over the batch,
collecting responses in input order.  A `StandaloneBindError` raised by
`ServerManager.run` aborts the loop; the mutations already performed
persist (Python exceptions do not roll state back), so the state reached
so far is returned alongside the error. -/
def Authenticator.perform2 (s : Authenticator) (achalls : List AChall) (env : Env) :
    (Authenticator × Env) × Except StandaloneBindError (List Response) :=
  match achalls with
  | [] => ((s, env), .ok [])
  | a :: rest =>
    match s.performStep env a with
    | .error e => ((s, env), .error e)
    | .ok (r, s', env') =>
      match s'.perform2 rest env' with
      | (se, .ok rs) => (se, .ok (r :: rs))
      | (se, .error e) => (se, .error e)

/-- The remediation notifications `perform` hands to the `IDisplay`
utility for the two classified bind-failure causes. -/
inductive Notification : Type
  | permissionDenied (port : Nat)
  | addressInUse (port : Nat)
deriving DecidableEq, Repr

/-- `Authenticator.perform(achalls)`: delegate to `perform2`; on a
`StandaloneBindError` whose errno is `EACCES` or `EADDRINUSE`, emit the
corresponding notification and fall off the end (returning `None`, i.e. no
responses); re-raise any other errno. -/
def Authenticator.perform (s : Authenticator) (achalls : List AChall) (env : Env) :
    (Authenticator × Env) ×
      Except StandaloneBindError (Option (List Response) × Option Notification) :=
  match s.perform2 achalls env with
  | (se, .ok responses) => (se, .ok (some responses, none))
  | (se, .error error) =>
    if error.socket_error = EACCES then
      (se, .ok (none, some (.permissionDenied error.port)))
    else if error.socket_error = EADDRINUSE then
      (se, .ok (none, some (.addressInUse error.port)))
    else
      (se, .error error)

/-- The second loop of `cleanup`: walk the `running()` snapshot and stop
every server whose (already reduced) served-set is empty. -/
def stopEmpty (served : List (Server × List AChall)) (m : ServerManager) :
    List (Nat × Server × Thread) → ServerManager
  | [] => m
  | (port, server, _) :: rest =>
    if servedLookup served server = [] then
      stopEmpty served (m.stop port) rest
    else
      stopEmpty served m rest

/-- `Authenticator.cleanup(achalls)`: discard the given challenges from
every server's served-set, then stop every running server whose served-set
is now empty. -/
def Authenticator.cleanup (s : Authenticator) (achalls : List AChall) :
    Authenticator :=
  let served' := s.served.map (fun e => (e.1, e.2.filter (fun a => decide (a ∉ achalls))))
  { s with
    served := served'
    servers := stopEmpty served' s.servers s.servers.running }

/-- The response `perform2` generates for one challenge, as a function of
the initial state (whose `key` and `config` the loop never changes). -/
def expectedResponse (s : Authenticator) (a : AChall) : Response :=
  match a with
  | .simpleHTTP _ _ => (gen_response_and_validation a (!s.config.no_simple_http_tls)).1
  | .dvsni _ _ => (gen_cert_and_response a s.key).1

/-- All keys of the handle table are nonzero: every key is a concrete port
reported by `getsockname`, never the wildcard 0. -/
def ServerManager.PortsNonzero (m : ServerManager) : Prop :=
  ∀ kv ∈ m._servers, kv.1 ≠ 0

/-- The handle table has no duplicate port keys (a Python dict cannot). -/
def ServerManager.KeysNodup (m : ServerManager) : Prop :=
  (m._servers.map Prod.fst).Nodup

theorem alookup_ainsert_self {α β : Type} [DecidableEq α] (k : α) (v : β) :
    ∀ l : List (α × β), alookup k (ainsert k v l) = some v
  | [] => by simp [ainsert, alookup]
  | (k', v') :: rest => by
    by_cases h : k' = k
    · simp [ainsert, alookup, h]
    · simp [ainsert, alookup, h, alookup_ainsert_self k v rest]

theorem alookup_eq_none {α β : Type} [DecidableEq α] (k : α) :
    ∀ l : List (α × β), (∀ kv ∈ l, kv.1 ≠ k) → alookup k l = none
  | [] => fun _ => rfl
  | (k', v') :: rest => fun h => by
    have hk : k' ≠ k := h (k', v') (List.mem_cons_self _ _)
    simpa [alookup, hk] using
      alookup_eq_none k rest (fun kv hkv => h kv (List.mem_cons_of_mem _ hkv))

/-- A sample well-formed operating system used by concrete witnesses: every
bind succeeds, port 0 resolving to port 9. -/
theorem sampleOsWF : OsWF (fun _ p => if p = 0 then .ok 9 else .ok p) := by
  intro i p ap h
  dsimp only at h
  split at h
  · rename_i hp
    cases h
    exact ⟨by decide, fun hc => absurd hp hc⟩
  · rename_i hp
    cases h
    exact ⟨hp, fun _ => rfl⟩

/-- C1 (amended): for every **nonzero** port `p`, a second `run` with the
same `(p, tls)` right after a successful one returns the very same
`(server, thread)` pair and leaves the manager state and environment
untouched — no second listener, no second thread, hence a single accept
loop for `p`.  (At `p = 0` the code keys the new entry under the
OS-assigned port, so a second `run(0, tls)` binds a fresh listener; see the
counterexample.) -/
theorem c1_run_idempotent_nonzero (m : ServerManager) (p : Nat) (tls : Bool)
    (env : Env) (st : Server × Thread) (m' : ServerManager) (env' : Env)
    (hwf : OsWF env.os) (hp : p ≠ 0)
    (h : m.run p tls env = .ok (st, m', env')) :
    m'.run p tls env' = .ok (st, m', env') := by
  simp only [ServerManager.run] at h ⊢
  cases halo : alookup p m._servers with
  | some st0 =>
    simp only [halo, Except.ok.injEq, Prod.mk.injEq] at h
    obtain ⟨h1, h2, h3⟩ := h
    subst h1; subst h2; subst h3
    simp [halo]
  | none =>
    simp only [halo] at h
    cases ho : env.os env.idx p with
    | err e => simp [ho] at h
    | ok ap =>
      have hap : ap = p := (hwf env.idx p ap ho).2 hp
      subst hap
      simp only [ho, Except.ok.injEq, Prod.mk.injEq] at h
      obtain ⟨h1, h2, h3⟩ := h
      subst h1; subst h2; subst h3
      simp [alookup_ainsert_self]

/-- C1 witness: concrete application of the amended idempotence theorem on
port 80 against a well-formed operating system. -/
theorem c1_witness :
    ServerManager.run ⟨[(80, ⟨0, 80, true⟩, ⟨0⟩)], 1⟩ 80 true
        (Env.next ⟨fun _ p => if p = 0 then .ok 9 else .ok p, 0⟩) =
      .ok ((⟨0, 80, true⟩, ⟨0⟩), ⟨[(80, ⟨0, 80, true⟩, ⟨0⟩)], 1⟩,
           Env.next ⟨fun _ p => if p = 0 then .ok 9 else .ok p, 0⟩) :=
  c1_run_idempotent_nonzero ⟨[], 0⟩ 80 true
    ⟨fun _ p => if p = 0 then .ok 9 else .ok p, 0⟩
    (⟨0, 80, true⟩, ⟨0⟩) ⟨[(80, ⟨0, 80, true⟩, ⟨0⟩)], 1⟩
    (Env.next ⟨fun _ p => if p = 0 then .ok 9 else .ok p, 0⟩)
    sampleOsWF (by decide) rfl

/-- C1 counterexample: as stated ("for every port `p`"), the claim fails at
`p = 0`.  Two successive `run(0, tls)` calls on a fresh manager each bind a
new listener (the OS assigning 8080 then 8081): the returned handles
differ and the handle table ends with two entries, i.e. two accept loops. -/
theorem c1_counterexample :
    (ServerManager.run ⟨[], 0⟩ 0 true ⟨fun i _ => .ok (8080 + i), 0⟩).toOption.map
        (fun x => (x.1, x.2.1)) =
      some ((⟨0, 8080, true⟩, ⟨0⟩), ⟨[(8080, ⟨0, 8080, true⟩, ⟨0⟩)], 1⟩) ∧
    (ServerManager.run ⟨[(8080, ⟨0, 8080, true⟩, ⟨0⟩)], 1⟩ 0 true
        ⟨fun i _ => .ok (8080 + i), 1⟩).toOption.map (fun x => (x.1, x.2.1)) =
      some ((⟨1, 8081, true⟩, ⟨1⟩),
            ⟨[(8080, ⟨0, 8080, true⟩, ⟨0⟩), (8081, ⟨1, 8081, true⟩, ⟨1⟩)], 2⟩) ∧
    ((⟨1, 8081, true⟩ : Server), (⟨1⟩ : Thread)) ≠ ((⟨0, 8080, true⟩ : Server), (⟨0⟩ : Thread)) ∧
    (ServerManager._servers
        ⟨[(8080, ⟨0, 8080, true⟩, ⟨0⟩), (8081, ⟨1, 8081, true⟩, ⟨1⟩)], 2⟩).length = 2 :=
  ⟨rfl, rfl, by decide, rfl⟩

/-- A failed `run` carries the requested port and the environment's errno,
and can only arise when the table has no entry for that port. -/
theorem run_error_facts (m : ServerManager) (p : Nat) (tls : Bool) (env : Env)
    (err : StandaloneBindError) (h : m.run p tls env = .error err) :
    err.port = p ∧ env.os env.idx p = .err err.socket_error ∧
      alookup p m._servers = none := by
  simp only [ServerManager.run] at h
  cases halo : alookup p m._servers with
  | some st0 => simp [halo] at h
  | none =>
    simp only [halo] at h
    cases ho : env.os env.idx p with
    | ok ap => simp [ho] at h
    | err e =>
      simp only [ho, Except.error.injEq] at h
      refine ⟨?_, ?_, ?_⟩
      · rw [← h]
      · rw [← h]
      · rfl

/-- C4: whenever `run` raises `StandaloneBindError`, the error carries the
requested port and the `errno` of the underlying `socket.error` supplied by
the environment, and no mutation happened: the caller's handle table (the
unchanged `m`) has no entry for that port, so `running()` does not list
it. -/
theorem c4_run_bind_error (m : ServerManager) (p : Nat) (tls : Bool) (env : Env)
    (err : StandaloneBindError) (h : m.run p tls env = .error err) :
    err.port = p ∧ env.os env.idx p = .err err.socket_error ∧
      alookup p m.running = none :=
  run_error_facts m p tls env err h

/-- C4 witness: a permission-denied bind on port 80 against a fresh
manager. -/
theorem c4_witness :
    (StandaloneBindError.mk 13 80).port = 80 ∧
      (Env.mk (fun _ _ => .err 13) 0).os (Env.mk (fun _ _ => .err 13) 0).idx 80 =
        .err (StandaloneBindError.mk 13 80).socket_error ∧
      alookup 80 (ServerManager.running ⟨[], 0⟩) = none :=
  c4_run_bind_error ⟨[], 0⟩ 80 true ⟨fun _ _ => .err 13, 0⟩ ⟨13, 80⟩ rfl

/-- C5: a successful `run(0, tls)` against a well-formed operating system,
from any state whose table keys are concrete nonzero ports, returns a
server whose port is a concrete nonzero OS-assigned port, and `running()`
immediately lists that assigned port with the returned handle. -/
theorem c5_run_port_zero (m : ServerManager) (tls : Bool) (env : Env)
    (st : Server × Thread) (m' : ServerManager) (env' : Env)
    (hwf : OsWF env.os) (hz : m.PortsNonzero)
    (h : m.run 0 tls env = .ok (st, m', env')) :
    st.1.port ≠ 0 ∧ alookup st.1.port m'.running = some st := by
  simp only [ServerManager.run] at h
  have halo : alookup 0 m._servers = none :=
    alookup_eq_none 0 m._servers (fun kv hkv => hz kv hkv)
  simp only [halo] at h
  cases ho : env.os env.idx 0 with
  | err e => simp [ho] at h
  | ok ap =>
    have hap : ap ≠ 0 := (hwf env.idx 0 ap ho).1
    simp only [ho, Except.ok.injEq, Prod.mk.injEq] at h
    obtain ⟨h1, h2, h3⟩ := h
    subst h1; subst h2
    exact ⟨hap, by simp [ServerManager.running, alookup_ainsert_self]⟩

/-- C5 witness: `run(0, tls)` on a fresh manager with the OS assigning
port 9. -/
theorem c5_witness :
    ((⟨0, 9, true⟩ : Server), (⟨0⟩ : Thread)).1.port ≠ 0 ∧
      alookup ((⟨0, 9, true⟩ : Server), (⟨0⟩ : Thread)).1.port
        (ServerManager.running ⟨[(9, ⟨0, 9, true⟩, ⟨0⟩)], 1⟩) =
        some (⟨0, 9, true⟩, ⟨0⟩) :=
  c5_run_port_zero ⟨[], 0⟩ true ⟨fun _ p => if p = 0 then .ok 9 else .ok p, 0⟩
    (⟨0, 9, true⟩, ⟨0⟩) ⟨[(9, ⟨0, 9, true⟩, ⟨0⟩)], 1⟩
    (Env.next ⟨fun _ p => if p = 0 then .ok 9 else .ok p, 0⟩)
    sampleOsWF (by intro kv hkv; cases hkv) rfl

/-- C9 (implicit): the reuse check of `run` is keyed on the port alone —
whenever the table has an entry for `p`, `run(p, tls)` returns that entry
unchanged for *every* value of `tls`, so a caller requesting the opposite
protocol silently receives the originally constructed server. -/
theorem c9_run_reuses_by_port_only (m : ServerManager) (p : Nat) (env : Env)
    (st : Server × Thread) (h : alookup p m._servers = some st) :
    ∀ tls : Bool, m.run p tls env = .ok (st, m, env) := by
  intro tls
  simp [ServerManager.run, h]

/-- C9 witness: a TLS server is registered on port 80; a `run(80, false)`
requesting a non-TLS server receives the TLS one unchanged. -/
theorem c9_witness :
    ServerManager.run ⟨[(80, ⟨0, 80, true⟩, ⟨0⟩)], 1⟩ 80 false ⟨fun _ _ => .err 13, 0⟩ =
      .ok ((⟨0, 80, true⟩, ⟨0⟩), ⟨[(80, ⟨0, 80, true⟩, ⟨0⟩)], 1⟩,
           ⟨fun _ _ => .err 13, 0⟩) :=
  c9_run_reuses_by_port_only ⟨[(80, ⟨0, 80, true⟩, ⟨0⟩)], 1⟩ 80
    ⟨fun _ _ => .err 13, 0⟩ (⟨0, 80, true⟩, ⟨0⟩) (by decide) false

/-- C8: `supported_challenges_validator` splits its input on commas and:
raises `ArgumentTypeError` naming exactly the unknown entries when any name
is outside the known set `Challenge.TYPES`; otherwise raises
`ArgumentTypeError` naming the (deduplicated) valid-but-unsupported entries
when any name is outside the plugin's supported set (`dvsni`,
`simpleHttp`); and otherwise returns the input string unchanged. -/
theorem c8_validator (data : String) :
    ((splitCommas data).filter (fun n => decide (n ∉ Challenge.TYPES)) ≠ [] →
      supported_challenges_validator data =
        .error (.unrecognized
          ((splitCommas data).filter (fun n => decide (n ∉ Challenge.TYPES))))) ∧
    ((splitCommas data).filter (fun n => decide (n ∉ Challenge.TYPES)) = [] →
      (¬ ∀ n ∈ splitCommas data, n ∈ SUPPORTED_CHALLENGES.map ChallengeType.typ) →
      supported_challenges_validator data =
        .error (.unsupported
          (((splitCommas data).filter
              (fun c => decide (c ∉ SUPPORTED_CHALLENGES.map ChallengeType.typ))).dedup))) ∧
    ((∀ n ∈ splitCommas data, n ∈ SUPPORTED_CHALLENGES.map ChallengeType.typ) →
      supported_challenges_validator data = .ok data) := by
  refine ⟨fun h1 => ?_, fun h1 h2 => ?_, fun h3 => ?_⟩
  · simp only [supported_challenges_validator]
    rw [if_pos h1]
  · have hcond : ¬ ((splitCommas data).all
        (fun c => decide (c ∈ SUPPORTED_CHALLENGES.map ChallengeType.typ)) = true) := by
      simpa [List.all_eq_true] using h2
    simp only [supported_challenges_validator]
    rw [if_neg (not_not_intro h1), if_pos hcond]
  · have hunrec : (splitCommas data).filter (fun n => decide (n ∉ Challenge.TYPES)) = [] := by
      rw [List.filter_eq_nil_iff]
      intro a ha
      have hmem : a ∈ ["dvsni", "simpleHttp"] := by
        simpa [SUPPORTED_CHALLENGES, ChallengeType.typ] using h3 a ha
      simp only [decide_eq_true_eq, not_not]
      simp only [List.mem_cons, List.mem_singleton, List.not_mem_nil, or_false] at hmem
      rcases hmem with h | h <;> subst h <;> decide
    have hcond : ¬ ¬ ((splitCommas data).all
        (fun c => decide (c ∈ SUPPORTED_CHALLENGES.map ChallengeType.typ)) = true) := by
      simp only [not_not, List.all_eq_true, decide_eq_true_eq]
      exact h3
    simp only [supported_challenges_validator]
    rw [if_neg (not_not_intro hunrec), if_neg hcond]

/-- C8 witness: the default configuration value `"dvsni,simpleHttp"` is
accepted and returned unchanged. -/
theorem c8_witness :
    supported_challenges_validator "dvsni,simpleHttp" = .ok "dvsni,simpleHttp" :=
  (c8_validator "dvsni,simpleHttp").2.2 (by decide)

theorem aerase_cons_self {α β : Type} [DecidableEq α] (k : α) (v : β)
    (l : List (α × β)) : aerase k ((k, v) :: l) = l := by
  simp [aerase]

theorem aerase_append_not_mem {α β : Type} [DecidableEq α] (k : α) :
    ∀ (l₁ l₂ : List (α × β)), k ∉ l₁.map Prod.fst →
      aerase k (l₁ ++ l₂) = l₁ ++ aerase k l₂
  | [], l₂, _ => rfl
  | (k', v') :: rest, l₂, h => by
    have hk : k' ≠ k := fun hc => h (by simp [hc])
    have hrest : k ∉ rest.map Prod.fst := fun hc => h (by simp [hc])
    simp [aerase, hk, aerase_append_not_mem k rest l₂ hrest]

theorem alookup_map_snd {α β γ : Type} [DecidableEq α] (k : α) (f : β → γ) :
    ∀ l : List (α × β),
      alookup k (l.map (fun e => (e.1, f e.2))) = (alookup k l).map f
  | [] => rfl
  | (k', v') :: rest => by
    by_cases h : k' = k
    · simp [alookup, h]
    · simp [alookup, h, alookup_map_snd k f rest]

theorem servedLookup_map_filter (served : List (Server × List AChall))
    (srv : Server) (f : AChall → Bool) :
    servedLookup (served.map (fun e => (e.1, e.2.filter f))) srv =
      (servedLookup served srv).filter f := by
  unfold servedLookup
  rw [alookup_map_snd]
  cases alookup srv served <;> simp

theorem filter_self_idem {α : Type} (p : α → Bool) (l : List α) :
    (l.filter p).filter p = l.filter p := by
  rw [List.filter_filter]
  simp

/-- The second `cleanup` loop, fully characterised: walking a snapshot
`r` of the tail of the table (the processed, kept prefix being `kept`)
removes exactly the entries whose server's served-set is empty, and leaves
`nextId` alone. -/
theorem stopEmpty_eq_filter (served : List (Server × List AChall)) :
    ∀ (r kept : List (Nat × Server × Thread)) (m : ServerManager),
      m._servers = kept ++ r →
      ((kept ++ r).map Prod.fst).Nodup →
      (stopEmpty served m r)._servers =
        kept ++ r.filter (fun kv => decide (¬ servedLookup served kv.2.1 = [])) ∧
      (stopEmpty served m r).nextId = m.nextId
  | [], kept, m, hm, _ => by simp [stopEmpty, hm]
  | (port, server, thr) :: rest, kept, m, hm, hnd => by
    have hndkr : ((kept ++ rest).map Prod.fst).Nodup := by
      refine List.Nodup.sublist (List.Sublist.map Prod.fst ?_) hnd
      exact List.Sublist.append_left (List.sublist_cons_self _ _) kept
    by_cases hcond : servedLookup served server = []
    · have hnotin : port ∉ kept.map Prod.fst := by
        intro hin
        rw [List.map_append] at hnd
        have hdisj := (List.nodup_append.mp hnd).2.2
        exact hdisj hin (by simp)
      have hstop : (m.stop port)._servers = kept ++ rest := by
        rw [ServerManager.stop, hm, aerase_append_not_mem port kept _ hnotin,
            aerase_cons_self]
      have ih := stopEmpty_eq_filter served rest kept (m.stop port) hstop hndkr
      simp only [stopEmpty, if_pos hcond]
      rw [ih.1, ih.2]
      simp [hcond, ServerManager.stop]
    · have hm' : m._servers = (kept ++ [(port, server, thr)]) ++ rest := by
        rw [hm, List.append_assoc]; rfl
      have hnd' : (((kept ++ [(port, server, thr)]) ++ rest).map Prod.fst).Nodup := by
        rw [List.append_assoc]; exact hnd
      have ih := stopEmpty_eq_filter served rest (kept ++ [(port, server, thr)]) m hm' hnd'
      simp only [stopEmpty, if_neg hcond]
      rw [ih.1, ih.2]
      simp [hcond, List.append_assoc]

/-- Corollary of `stopEmpty_eq_filter` for the actual call shape inside
`cleanup` (snapshot = whole table, no processed prefix). -/
theorem stopEmpty_run (served : List (Server × List AChall)) (m : ServerManager)
    (hnd : m.KeysNodup) :
    (stopEmpty served m m.running)._servers =
      m._servers.filter (fun kv => decide (¬ servedLookup served kv.2.1 = [])) ∧
    (stopEmpty served m m.running).nextId = m.nextId := by
  have h := stopEmpty_eq_filter served m.running [] m rfl (by simpa using hnd)
  simpa using h

/-- The first `cleanup` loop is idempotent on the served map. -/
theorem phase1_idem (f : AChall → Bool) :
    ∀ served : List (Server × List AChall),
      (served.map (fun e => (e.1, e.2.filter f))).map (fun e => (e.1, e.2.filter f)) =
        served.map (fun e => (e.1, e.2.filter f))
  | [] => rfl
  | e :: rest => by
    simp only [List.map_cons, filter_self_idem, phase1_idem f rest]

theorem ServerManager.eq_of (m₁ m₂ : ServerManager)
    (h1 : m₁._servers = m₂._servers) (h2 : m₁.nextId = m₂.nextId) : m₁ = m₂ := by
  cases m₁; cases m₂; cases h1; cases h2; rfl

/-- C10 (implicit): for every challenge set `cs` (including `[]`),
`cleanup cs` removes from the running table every server whose served-set
was empty beforehand — in particular one started via `ServerManager.run`
but never recorded in `served`, which reads as the empty set in the
`defaultdict` — and afterwards every still-running server has a non-empty
served-set. -/
theorem c10_cleanup_stops_unserved (s : Authenticator) (cs : List AChall)
    (hnd : s.servers.KeysNodup) :
    (∀ kv ∈ s.servers._servers, servedLookup s.served kv.2.1 = [] →
        kv ∉ (s.cleanup cs).servers._servers) ∧
    (∀ kv ∈ (s.cleanup cs).servers._servers,
        servedLookup (s.cleanup cs).served kv.2.1 ≠ []) := by
  have hchar := stopEmpty_run (s.served.map (fun e =>
    (e.1, e.2.filter (fun a => decide (a ∉ cs))))) s.servers hnd
  have hserved : (s.cleanup cs).served =
      s.served.map (fun e => (e.1, e.2.filter (fun a => decide (a ∉ cs)))) := rfl
  have hservers : (s.cleanup cs).servers._servers =
      s.servers._servers.filter (fun kv => decide (¬ servedLookup
        (s.served.map (fun e => (e.1, e.2.filter (fun a => decide (a ∉ cs)))))
        kv.2.1 = [])) := hchar.1
  constructor
  · intro kv _ hempty hin
    rw [hservers, List.mem_filter] at hin
    have hlook : servedLookup (s.served.map (fun e =>
        (e.1, e.2.filter (fun a => decide (a ∉ cs))))) kv.2.1 = [] := by
      rw [servedLookup_map_filter, hempty]
      rfl
    rw [decide_eq_true_eq] at hin
    exact hin.2 hlook
  · intro kv hin
    rw [hservers, List.mem_filter, decide_eq_true_eq] at hin
    rw [hserved]
    exact hin.2

/-- C10 witness: a server running on port 80 that no entry of `served`
records is stopped by `cleanup []`, and the post-state invariant holds. -/
theorem c10_witness :
    (∀ kv ∈ (ServerManager._servers ⟨[(80, ⟨0, 80, true⟩, ⟨0⟩)], 1⟩),
        servedLookup [] kv.2.1 = [] →
        kv ∉ (Authenticator.cleanup
          ⟨7, gen_ss_cert 7 ["temp server"], [], [], [],
           ⟨[(80, ⟨0, 80, true⟩, ⟨0⟩)], 1⟩, ⟨80, 443, false⟩⟩ []).servers._servers) ∧
    (∀ kv ∈ (Authenticator.cleanup
          ⟨7, gen_ss_cert 7 ["temp server"], [], [], [],
           ⟨[(80, ⟨0, 80, true⟩, ⟨0⟩)], 1⟩, ⟨80, 443, false⟩⟩ []).servers._servers,
        servedLookup ((Authenticator.cleanup
          ⟨7, gen_ss_cert 7 ["temp server"], [], [], [],
           ⟨[(80, ⟨0, 80, true⟩, ⟨0⟩)], 1⟩, ⟨80, 443, false⟩⟩ []).served) kv.2.1 ≠ []) :=
  c10_cleanup_stops_unserved
    ⟨7, gen_ss_cert 7 ["temp server"], [], [], [],
     ⟨[(80, ⟨0, 80, true⟩, ⟨0⟩)], 1⟩, ⟨80, 443, false⟩⟩ []
    (by unfold ServerManager.KeysNodup; decide)

/-- C6: a server whose served-set is already empty and which is not
running (it was already stopped) is untouched by `cleanup`: its served-set
stays empty and it is not running afterwards either (no double stop); and
`cleanup` is idempotent from any dict-representable state (no duplicate
port keys): running it twice with the same challenge set yields exactly
the state of running it once. -/
theorem c6_cleanup_noop_and_idempotent (s : Authenticator) (cs : List AChall)
    (hnd : s.servers.KeysNodup) :
    (∀ srv : Server, servedLookup s.served srv = [] →
        (∀ kv ∈ s.servers._servers, kv.2.1 ≠ srv) →
        servedLookup (s.cleanup cs).served srv = [] ∧
          ∀ kv ∈ (s.cleanup cs).servers._servers, kv.2.1 ≠ srv) ∧
    (s.cleanup cs).cleanup cs = s.cleanup cs := by
  have hchar := stopEmpty_run (s.served.map (fun e =>
    (e.1, e.2.filter (fun a => decide (a ∉ cs))))) s.servers hnd
  have hservers : (s.cleanup cs).servers._servers =
      s.servers._servers.filter (fun kv => decide (¬ servedLookup
        (s.served.map (fun e => (e.1, e.2.filter (fun a => decide (a ∉ cs)))))
        kv.2.1 = [])) := hchar.1
  constructor
  · intro srv hempty hnotrun
    constructor
    · show servedLookup (s.served.map (fun e =>
        (e.1, e.2.filter (fun a => decide (a ∉ cs))))) srv = []
      rw [servedLookup_map_filter, hempty]
      rfl
    · intro kv hkv
      rw [hservers, List.mem_filter] at hkv
      exact hnotrun kv hkv.1
  · have hnd' : (s.cleanup cs).servers.KeysNodup := by
      unfold ServerManager.KeysNodup
      rw [hservers]
      exact List.Nodup.sublist (List.Sublist.map Prod.fst (List.filter_sublist _)) hnd
    have hchar' := stopEmpty_run ((s.cleanup cs).served.map (fun e =>
      (e.1, e.2.filter (fun a => decide (a ∉ cs))))) (s.cleanup cs).servers hnd'
    have hserved1 : (s.cleanup cs).served =
        s.served.map (fun e => (e.1, e.2.filter (fun a => decide (a ∉ cs)))) := rfl
    have hserved2 : (s.cleanup cs).served.map
          (fun e => (e.1, e.2.filter (fun a => decide (a ∉ cs)))) =
        (s.cleanup cs).served := by
      rw [hserved1]
      exact phase1_idem _ s.served
    have hservers2 : (stopEmpty ((s.cleanup cs).served.map (fun e =>
          (e.1, e.2.filter (fun a => decide (a ∉ cs)))))
          (s.cleanup cs).servers (s.cleanup cs).servers.running) =
        (s.cleanup cs).servers := by
      refine ServerManager.eq_of _ _ ?_ hchar'.2
      rw [hchar'.1, hserved2, hserved1, hservers]
      exact filter_self_idem _ _
    show { (s.cleanup cs) with
            served := (s.cleanup cs).served.map
              (fun e => (e.1, e.2.filter (fun a => decide (a ∉ cs))))
            servers := stopEmpty ((s.cleanup cs).served.map (fun e =>
              (e.1, e.2.filter (fun a => decide (a ∉ cs)))))
              (s.cleanup cs).servers (s.cleanup cs).servers.running } =
          s.cleanup cs
    rw [hservers2, hserved2]

/-- C6 witness: concrete application — a state with one running server on
port 80 recorded as serving one challenge; the already-stopped server
`⟨5, 99, false⟩` with an empty served-set is untouched, and a second
`cleanup` changes nothing. -/
theorem c6_witness :
    ((∀ srv : Server, servedLookup [(⟨0, 80, true⟩, [AChall.simpleHTTP "a" "t"])] srv = [] →
        (∀ kv ∈ (ServerManager._servers ⟨[(80, ⟨0, 80, true⟩, ⟨0⟩)], 1⟩), kv.2.1 ≠ srv) →
        servedLookup ((Authenticator.cleanup
          ⟨7, gen_ss_cert 7 ["temp server"], [(⟨0, 80, true⟩, [AChall.simpleHTTP "a" "t"])],
           [], [], ⟨[(80, ⟨0, 80, true⟩, ⟨0⟩)], 1⟩, ⟨80, 443, false⟩⟩ []).served) srv = [] ∧
          ∀ kv ∈ (Authenticator.cleanup
            ⟨7, gen_ss_cert 7 ["temp server"], [(⟨0, 80, true⟩, [AChall.simpleHTTP "a" "t"])],
             [], [], ⟨[(80, ⟨0, 80, true⟩, ⟨0⟩)], 1⟩, ⟨80, 443, false⟩⟩ []).servers._servers,
            kv.2.1 ≠ srv) ∧
      (Authenticator.cleanup (Authenticator.cleanup
          ⟨7, gen_ss_cert 7 ["temp server"], [(⟨0, 80, true⟩, [AChall.simpleHTTP "a" "t"])],
           [], [], ⟨[(80, ⟨0, 80, true⟩, ⟨0⟩)], 1⟩, ⟨80, 443, false⟩⟩ []) []) =
        Authenticator.cleanup
          ⟨7, gen_ss_cert 7 ["temp server"], [(⟨0, 80, true⟩, [AChall.simpleHTTP "a" "t"])],
           [], [], ⟨[(80, ⟨0, 80, true⟩, ⟨0⟩)], 1⟩, ⟨80, 443, false⟩⟩ []) :=
  c6_cleanup_noop_and_idempotent
    ⟨7, gen_ss_cert 7 ["temp server"], [(⟨0, 80, true⟩, [AChall.simpleHTTP "a" "t"])],
     [], [], ⟨[(80, ⟨0, 80, true⟩, ⟨0⟩)], 1⟩, ⟨80, 443, false⟩⟩ []
    (by unfold ServerManager.KeysNodup; decide)

/-- One `perform2` iteration never changes `key` or `config`, and the
response it emits is the deterministic proof material for its challenge. -/
theorem performStep_const (s : Authenticator) (env : Env) (a : AChall)
    (r : Response) (s' : Authenticator) (env' : Env)
    (h : s.performStep env a = .ok (r, s', env')) :
    s'.key = s.key ∧ s'.config = s.config ∧ r = expectedResponse s a := by
  cases a with
  | simpleHTTP d t =>
    simp only [Authenticator.performStep] at h
    cases hrun : s.servers.run s.config.simple_http_port (!s.config.no_simple_http_tls) env with
    | error e => simp [hrun] at h
    | ok v =>
      obtain ⟨⟨server, thr⟩, m, env2⟩ := v
      simp only [hrun, Except.ok.injEq, Prod.mk.injEq] at h
      obtain ⟨h1, h2, h3⟩ := h
      subst h1; subst h2
      exact ⟨rfl, rfl, rfl⟩
  | dvsni d t =>
    simp only [Authenticator.performStep] at h
    cases hrun : s.servers.run s.config.dvsni_port true env with
    | error e => simp [hrun] at h
    | ok v =>
      obtain ⟨⟨server, thr⟩, m, env2⟩ := v
      simp only [hrun, Except.ok.injEq, Prod.mk.injEq] at h
      obtain ⟨h1, h2, h3⟩ := h
      subst h1; subst h2
      exact ⟨rfl, rfl, rfl⟩

/-- A failing `perform2` iteration performed no mutation: its error carries
a port absent from the pre-state's handle table. -/
theorem performStep_error (s : Authenticator) (env : Env) (a : AChall)
    (err : StandaloneBindError) (h : s.performStep env a = .error err) :
    alookup err.port s.servers._servers = none := by
  cases a with
  | simpleHTTP d t =>
    simp only [Authenticator.performStep] at h
    cases hrun : s.servers.run s.config.simple_http_port (!s.config.no_simple_http_tls) env with
    | ok v => simp [hrun] at h
    | error e =>
      simp only [hrun, Except.error.injEq] at h
      subst h
      have hf := run_error_facts s.servers s.config.simple_http_port
        (!s.config.no_simple_http_tls) env e hrun
      rw [hf.1]
      exact hf.2.2
  | dvsni d t =>
    simp only [Authenticator.performStep] at h
    cases hrun : s.servers.run s.config.dvsni_port true env with
    | ok v => simp [hrun] at h
    | error e =>
      simp only [hrun, Except.error.injEq] at h
      subst h
      have hf := run_error_facts s.servers s.config.dvsni_port true env e hrun
      rw [hf.1]
      exact hf.2.2

/-- When `perform2` aborts with a `StandaloneBindError`, the port named in
the error has no entry in the handle table of the state the exception
leaves behind (the failing bind registered nothing). -/
theorem perform2_error_state (s : Authenticator) (achalls : List AChall)
    (env : Env) (se : Authenticator × Env) (err : StandaloneBindError)
    (h : s.perform2 achalls env = (se, .error err)) :
    alookup err.port se.1.servers._servers = none := by
  induction achalls generalizing s env se with
  | nil => simp [Authenticator.perform2] at h
  | cons a rest ih =>
    simp only [Authenticator.perform2] at h
    cases hstep : s.performStep env a with
    | error e =>
      simp only [hstep, Prod.mk.injEq, Except.error.injEq] at h
      obtain ⟨hse, herr⟩ := h
      subst herr
      rw [← hse]
      exact performStep_error s env a e hstep
    | ok v =>
      obtain ⟨r, s1, env1⟩ := v
      simp only [hstep] at h
      cases hrec : s1.perform2 rest env1 with
      | mk se2 res2 =>
        cases res2 with
        | ok rs => simp [hrec] at h
        | error e2 =>
          simp only [hrec, Prod.mk.injEq, Except.error.injEq] at h
          obtain ⟨hse, herr⟩ := h
          subst herr
          rw [← hse]
          exact ih s1 env1 se2 hrec

theorem expectedResponse_congr (s s' : Authenticator)
    (hk : s'.key = s.key) (hc : s'.config = s.config) :
    ∀ a, expectedResponse s' a = expectedResponse s a := by
  intro a
  cases a <;> simp [expectedResponse, hk, hc]

/-- C7: a successful `perform2` returns exactly one response per input
challenge, in the order of the input batch: the result is the map of the
deterministic proof-material generator over the batch. -/
theorem c7_perform2_responses_in_order (s : Authenticator) (achalls : List AChall)
    (env : Env) (se : Authenticator × Env) (rs : List Response)
    (h : s.perform2 achalls env = (se, .ok rs)) :
    rs = achalls.map (expectedResponse s) := by
  induction achalls generalizing s env se rs with
  | nil =>
    simp only [Authenticator.perform2, Prod.mk.injEq, Except.ok.injEq] at h
    rw [← h.2]
    rfl
  | cons a rest ih =>
    simp only [Authenticator.perform2] at h
    cases hstep : s.performStep env a with
    | error e => simp [hstep] at h
    | ok v =>
      obtain ⟨r, s1, env1⟩ := v
      simp only [hstep] at h
      cases hrec : s1.perform2 rest env1 with
      | mk se2 res2 =>
        cases res2 with
        | error e2 => simp [hrec] at h
        | ok rs2 =>
          simp only [hrec, Prod.mk.injEq, Except.ok.injEq] at h
          obtain ⟨hse, hrs⟩ := h
          obtain ⟨hk, hc, hr⟩ := performStep_const s env a r s1 env1 hstep
          have hrest := ih s1 env1 se2 rs2 hrec
          rw [← hrs, List.map_cons, hr, hrest,
              funext (expectedResponse_congr s s1 hk hc)]

/-- C3 (amended): when `perform2` raises `StandaloneBindError`, `perform`
catches an `EACCES` or `EADDRINUSE` cause at the boundary, emits the
matching user-facing notification for the failing port and returns no
responses at all (Python's implicit `None`) — the whole batch's responses
are discarded, not only the affected challenge's, and listeners already
started for earlier challenges of the batch stay running in the returned
state; the failed bind itself registered no listener for its port; any
other cause propagates unhandled to the caller. -/
theorem c3_perform_bind_error_policy (s : Authenticator) (achalls : List AChall)
    (env : Env) (se : Authenticator × Env) (err : StandaloneBindError)
    (h : s.perform2 achalls env = (se, .error err)) :
    (err.socket_error = EACCES →
      s.perform achalls env = (se, .ok (none, some (.permissionDenied err.port)))) ∧
    (err.socket_error = EADDRINUSE →
      s.perform achalls env = (se, .ok (none, some (.addressInUse err.port)))) ∧
    (err.socket_error ≠ EACCES → err.socket_error ≠ EADDRINUSE →
      s.perform achalls env = (se, .error err)) ∧
    alookup err.port se.1.servers._servers = none := by
  obtain ⟨sa, senv⟩ := se
  refine ⟨?_, ?_, ?_, perform2_error_state s achalls env (sa, senv) err h⟩
  · intro hacc
    simp only [Authenticator.perform, h]
    rw [if_pos hacc]
  · intro haddr
    have hacc : ¬ err.socket_error = EACCES := by
      rw [haddr]; decide
    simp only [Authenticator.perform, h]
    rw [if_neg hacc, if_pos haddr]
  · intro hacc haddr
    simp only [Authenticator.perform, h]
    rw [if_neg hacc, if_neg haddr]

/-- C3 counterexample: batch of a DVSNI challenge (bind on 443 succeeds)
followed by a SimpleHTTP challenge whose bind on port 80 fails with
`EACCES`.  `perform` emits the permission-denied guidance, but returns no
responses at all — the already-answered DVSNI challenge of the batch fails
too — and the DVSNI listener started for this very attempt is still
running afterwards, refuting "only the affected challenge fails and no
partial listener state is left running for that attempt". -/
theorem c3_counterexample :
    ((Authenticator.init ⟨80, 443, false⟩ 7).perform
        [.dvsni "d.example" "t1", .simpleHTTP "a.example" "t2"]
        ⟨fun _ p => if p = 443 then .ok 443 else .err 13, 0⟩).2 =
      .ok (none, some (.permissionDenied 80)) ∧
    ((Authenticator.init ⟨80, 443, false⟩ 7).perform
        [.dvsni "d.example" "t1", .simpleHTTP "a.example" "t2"]
        ⟨fun _ p => if p = 443 then .ok 443 else .err 13, 0⟩).1.1.servers._servers =
      [(443, ⟨0, 443, true⟩, ⟨0⟩)] :=
  ⟨rfl, rfl⟩

/-- C2 (amended): `perform2` on a fresh authenticator with the single
SimpleHTTP challenge for `"a.example"`, when the bind on the configured
HTTP-proof port succeeds, produces exactly this state: exactly one server
runs, keyed by the configured HTTP-proof port; `simple_http_resources`
holds exactly the one token tuple for the challenge; one response is
returned — but `certs` is NOT unchanged: it gains the entry mapping
`"a.example"` to the shared key and self-signed certificate (line 248 of
the source runs for SimpleHTTP challenges too).  A subsequent `cleanup`
with the same challenge leaves no running servers. -/
theorem c2_perform_simple_http_scenario (cfg : Config) (key : Nat)
    (token : String) (env : Env)
    (hos : env.os env.idx cfg.simple_http_port = .ok cfg.simple_http_port) :
    (Authenticator.init cfg key).perform2 [.simpleHTTP "a.example" token] env =
      ((⟨key, gen_ss_cert key ["temp server"],
         [(⟨0, cfg.simple_http_port, !cfg.no_simple_http_tls⟩,
           [.simpleHTTP "a.example" token])],
         [("a.example", key, gen_ss_cert key ["temp server"])],
         [⟨token, ⟨.simpleHTTP "a.example" token, !cfg.no_simple_http_tls⟩,
           ⟨.simpleHTTP "a.example" token, !cfg.no_simple_http_tls⟩⟩],
         ⟨[(cfg.simple_http_port,
            ⟨0, cfg.simple_http_port, !cfg.no_simple_http_tls⟩, ⟨0⟩)], 1⟩,
         cfg⟩, env.next),
       .ok [⟨.simpleHTTP "a.example" token, !cfg.no_simple_http_tls⟩]) ∧
    (Authenticator.cleanup
      ⟨key, gen_ss_cert key ["temp server"],
       [(⟨0, cfg.simple_http_port, !cfg.no_simple_http_tls⟩,
         [.simpleHTTP "a.example" token])],
       [("a.example", key, gen_ss_cert key ["temp server"])],
       [⟨token, ⟨.simpleHTTP "a.example" token, !cfg.no_simple_http_tls⟩,
         ⟨.simpleHTTP "a.example" token, !cfg.no_simple_http_tls⟩⟩],
       ⟨[(cfg.simple_http_port,
          ⟨0, cfg.simple_http_port, !cfg.no_simple_http_tls⟩, ⟨0⟩)], 1⟩,
       cfg⟩ [.simpleHTTP "a.example" token]).servers._servers = [] := by
  constructor
  · simp [Authenticator.perform2, Authenticator.performStep, ServerManager.run,
          Authenticator.init, alookup, hos, gen_response_and_validation,
          AChall.domain, AChall.chall, setAdd, ainsert, servedAdd]
  · simp [Authenticator.cleanup, stopEmpty, servedLookup, alookup,
          ServerManager.stop, ServerManager.running, aerase]

/-- C2 counterexample: on a fresh authenticator, `perform2` with the single
SimpleHTTP challenge for `"a.example"` does change the certificate map —
`certs` is not equal to its (empty) initial state afterwards, refuting "the
certificate map (certs) is unaffected". -/
theorem c2_counterexample :
    ((Authenticator.init ⟨80, 443, false⟩ 7).perform2
        [.simpleHTTP "a.example" "tok"] ⟨fun _ p => .ok p, 0⟩).1.1.certs ≠
      (Authenticator.init ⟨80, 443, false⟩ 7).certs := by
  decide

/-- C2 witness: the scenario instantiated with ports 80/443, key 7 and
token `"tok"` against an all-binds-succeed operating system. -/
theorem c2_witness :
    (Authenticator.init ⟨80, 443, false⟩ 7).perform2
        [.simpleHTTP "a.example" "tok"] ⟨fun _ p => .ok p, 0⟩ =
      ((⟨7, gen_ss_cert 7 ["temp server"],
         [(⟨0, 80, true⟩, [.simpleHTTP "a.example" "tok"])],
         [("a.example", 7, gen_ss_cert 7 ["temp server"])],
         [⟨"tok", ⟨.simpleHTTP "a.example" "tok", true⟩,
           ⟨.simpleHTTP "a.example" "tok", true⟩⟩],
         ⟨[(80, ⟨0, 80, true⟩, ⟨0⟩)], 1⟩, ⟨80, 443, false⟩⟩,
        Env.next ⟨fun _ p => .ok p, 0⟩),
       .ok [⟨.simpleHTTP "a.example" "tok", true⟩]) ∧
    (Authenticator.cleanup
      ⟨7, gen_ss_cert 7 ["temp server"],
       [(⟨0, 80, true⟩, [.simpleHTTP "a.example" "tok"])],
       [("a.example", 7, gen_ss_cert 7 ["temp server"])],
       [⟨"tok", ⟨.simpleHTTP "a.example" "tok", true⟩,
         ⟨.simpleHTTP "a.example" "tok", true⟩⟩],
       ⟨[(80, ⟨0, 80, true⟩, ⟨0⟩)], 1⟩, ⟨80, 443, false⟩⟩
      [.simpleHTTP "a.example" "tok"]).servers._servers = [] :=
  c2_perform_simple_http_scenario ⟨80, 443, false⟩ 7 "tok" ⟨fun _ p => .ok p, 0⟩ rfl

/-- C7 witness: a two-challenge batch (one SimpleHTTP, one DVSNI) performed
on a fresh authenticator returns exactly the mapped proof material, in
input order. -/
theorem c7_witness :
    [(⟨.simpleHTTP "a" "t1", true⟩ : Response), ⟨.dvsni "d" "t2", true⟩] =
      [AChall.simpleHTTP "a" "t1", AChall.dvsni "d" "t2"].map
        (expectedResponse (Authenticator.init ⟨80, 443, false⟩ 7)) :=
  c7_perform2_responses_in_order (Authenticator.init ⟨80, 443, false⟩ 7)
    [.simpleHTTP "a" "t1", .dvsni "d" "t2"] ⟨fun _ p => .ok p, 0⟩
    (⟨7, .selfSigned 7 ["temp server"],
      [(⟨0, 80, true⟩, [.simpleHTTP "a" "t1"]), (⟨1, 443, true⟩, [.dvsni "d" "t2"])],
      [("a", 7, .selfSigned 7 ["temp server"]),
       ("d.acme.invalid", 7, .dvsniCert (.dvsni "d" "t2") 7)],
      [⟨"t1", ⟨.simpleHTTP "a" "t1", true⟩, ⟨.simpleHTTP "a" "t1", true⟩⟩],
      ⟨[(80, ⟨0, 80, true⟩, ⟨0⟩), (443, ⟨1, 443, true⟩, ⟨1⟩)], 2⟩,
      ⟨80, 443, false⟩⟩,
     ⟨fun _ p => .ok p, 2⟩)
    [⟨.simpleHTTP "a" "t1", true⟩, ⟨.dvsni "d" "t2", true⟩]
    rfl

/-- C3 witness: the EACCES leg of the amended propagation policy, applied
to the concrete two-challenge batch of the counterexample. -/
theorem c3_witness :
    (Authenticator.init ⟨80, 443, false⟩ 7).perform
        [.dvsni "d.example" "t1", .simpleHTTP "a.example" "t2"]
        ⟨fun _ p => if p = 443 then .ok 443 else .err 13, 0⟩ =
      ((⟨7, .selfSigned 7 ["temp server"],
         [(⟨0, 443, true⟩, [.dvsni "d.example" "t1"])],
         [("d.example.acme.invalid", 7, .dvsniCert (.dvsni "d.example" "t1") 7)],
         [], ⟨[(443, ⟨0, 443, true⟩, ⟨0⟩)], 1⟩, ⟨80, 443, false⟩⟩,
        ⟨fun _ p => if p = 443 then .ok 443 else .err 13, 1⟩),
       .ok (none, some (.permissionDenied 80))) :=
  (c3_perform_bind_error_policy (Authenticator.init ⟨80, 443, false⟩ 7)
    [.dvsni "d.example" "t1", .simpleHTTP "a.example" "t2"]
    ⟨fun _ p => if p = 443 then .ok 443 else .err 13, 0⟩
    (⟨7, .selfSigned 7 ["temp server"],
      [(⟨0, 443, true⟩, [.dvsni "d.example" "t1"])],
      [("d.example.acme.invalid", 7, .dvsniCert (.dvsni "d.example" "t1") 7)],
      [], ⟨[(443, ⟨0, 443, true⟩, ⟨0⟩)], 1⟩, ⟨80, 443, false⟩⟩,
     ⟨fun _ p => if p = 443 then .ok 443 else .err 13, 1⟩)
    ⟨13, 80⟩ rfl).1 rfl

end Standalone
